import Mathlib

/-!
Verification of the replica-membership synchronizer of the
terraform-provider-algolia repository, embedded shallowly from the Go
source under `internal/algoliautil`, `internal/mutex` and
`internal/provider`.
-/

namespace Algolia

/-- Go `error` values as they are distinguished by the code under
verification: an Algolia API error carrying an HTTP status code
(`errs.AlgoliaErr`), the transport error `errs.NoMoreHostToTryErr`, and
any other error (only its message is observable to the code). -/
inductive GoError where
  | algoliaErr (statusCode : Nat) (message : String)
  | noMoreHostToTry
  | generic (message : String)
deriving DecidableEq, Repr

namespace algoliautil

/-- Embeds `getReplicaIndexName` (internal/algoliautil/replica.go): the
encoded identifier of a replica inside a primary's replica list,
`fmt.Sprintf("virtual(%s)", indexName)` when virtual, the bare name
otherwise. -/
def getReplicaIndexName (indexName : String) (isVirtual : Bool) : String :=
  if isVirtual then "virtual(" ++ indexName ++ ")" else indexName

/-- The `for ... range` loop inside `IndexExistsInReplicas`: returns true
on the first element equal to the target, false when the loop ends. -/
def existsLoop (replicas : List String) (replicaIndexName : String) : Bool :=
  match replicas with
  | [] => false
  | replica :: rest =>
    if replica = replicaIndexName then true else existsLoop rest replicaIndexName

/-- Embeds `IndexExistsInReplicas` (internal/algoliautil/replica.go). -/
def IndexExistsInReplicas (replicas : List String) (indexName : String)
    (isVirtual : Bool) : Bool :=
  existsLoop replicas (getReplicaIndexName indexName isVirtual)

/-- The `for ... range` loop inside `RemoveIndexFromReplicas`: copies every
element except those equal to the target. -/
def removeLoop (replicas : List String) (replicaIndexName : String) : List String :=
  match replicas with
  | [] => []
  | replica :: rest =>
    if replica = replicaIndexName then removeLoop rest replicaIndexName
    else replica :: removeLoop rest replicaIndexName

/-- Embeds `RemoveIndexFromReplicas` (internal/algoliautil/replica.go). -/
def RemoveIndexFromReplicas (replicas : List String) (indexName : String)
    (isVirtual : Bool) : List String :=
  removeLoop replicas (getReplicaIndexName indexName isVirtual)

/-- Embeds `IsNotFoundError` (internal/algoliautil/algoliautil.go):
`errs.IsAlgoliaErrWithCode(err, http.StatusNotFound)`. -/
def IsNotFoundError (e : GoError) : Bool :=
  match e with
  | .algoliaErr statusCode _ => statusCode == 404
  | _ => false

/-- Embeds `IsRetryableError` (internal/algoliautil/algoliautil.go):
true exactly on not-found errors and `NoMoreHostToTryErr`. -/
def IsRetryableError (e : GoError) : Bool :=
  if IsNotFoundError e then true
  else
    match e with
    | .noMoreHostToTry => true
    | _ => false

end algoliautil

namespace provider

open algoliautil

/-- Remote index settings as far as the membership logic observes them:
only the `Replicas` field of a `GetSettings` response matters here. -/
structure Settings where
  replicas : List String
deriving DecidableEq, Repr

/-- Observable calls made by a lifecycle operation, in program order:
`mutexKV.Lock`/`Unlock`, `GetSettings`, the membership write
`SetSettings(search.Settings{Replicas: ...})`, the write of the resource's
own settings, `res.Wait()`, and `index.Delete`. -/
inductive Event where
  | lock (key : String)
  | unlock (key : String)
  | getSettingsCall (indexName : String)
  | setReplicasCall (indexName : String) (replicas : List String)
  | setOwnSettingsCall (indexName : String)
  | waitCall
  | deleteIndexCall (indexName : String)
deriving DecidableEq, Repr

/-- Outcomes the remote system returns to the calls of one lifecycle
operation: the primary's `GetSettings` result (only its replica list),
submission and wait errors of the membership write, of the own-settings
write and of the index deletion, and the read-back `GetSettings` result on
the resource itself. -/
structure RemoteEnv where
  primarySettings : Except GoError (List String)
  setReplicasErr : Option GoError
  setReplicasWaitErr : Option GoError
  setOwnErr : Option GoError
  setOwnWaitErr : Option GoError
  deleteErr : Option GoError
  deleteWaitErr : Option GoError
  readBack : Except GoError Settings
deriving Repr

/-- Embeds `algoliaIndexMutexKey` (internal/provider/resource_index.go):
`fmt.Sprintf("%s-algolia-index-%s", appID, indexName)`. -/
def algoliaIndexMutexKey (appID indexName : String) : String :=
  appID ++ "-algolia-index-" ++ indexName

/-- Prefix a trace of events onto a result-with-trace pair. -/
def withEvents (pre : List Event) (x : Except GoError Unit × List Event) :
    Except GoError Unit × List Event :=
  (x.1, pre ++ x.2)

/-- Outcome of a state refresh: the Terraform state was populated from the
remote settings, or the id was cleared (`d.SetId("")`) because the remote
resource was not found. -/
inductive RefreshOutcome where
  | populated
  | removedFromState
deriving DecidableEq, Repr

/-- Embeds `refreshIndexState` (internal/provider/resource_index.go):
a single `GetSettings` call on the resource itself, with not-found
clearing the state and any other error returned; the `setValues` schema
mapping is out of scope and modelled as succeeding. The structurally
identical `refreshVirtualIndexState` is embedded by the same function. -/
def refreshIndexState (read : Except GoError Settings) :
    Except GoError RefreshOutcome :=
  match read with
  | .error e => if IsNotFoundError e then .ok .removedFromState else .error e
  | .ok _ => .ok .populated

/-- Tail of both create operations after the membership step: write the
resource's own settings (`SetSettings(mapToIndexSettings d)` respectively
`mapToVirtualIndexSettings`), wait, then `d.SetId` and the read-back via
`resourceIndexRead`/`resourceVirtualIndexRead`. -/
def createTail (indexName : String) (env : RemoteEnv) :
    Except GoError Unit × List Event :=
  match env.setOwnErr with
  | some e => (.error e, [.setOwnSettingsCall indexName])
  | none =>
    match env.setOwnWaitErr with
    | some e => (.error e, [.setOwnSettingsCall indexName, .waitCall])
    | none =>
      ((refreshIndexState env.readBack).map (fun _ => ()),
       [.setOwnSettingsCall indexName, .waitCall, .getSettingsCall indexName])

/-- Membership step of `resourceIndexCreate` while the primary's lock is
held: read the primary's settings; if the bare name is absent from the
replica list, submit the whole-list replacement `append(old, indexName)`
and wait; then proceed to the tail of the create. -/
def resourceIndexCreateBody (indexName p : String) (env : RemoteEnv) :
    Except GoError Unit × List Event :=
  match env.primarySettings with
  | .error e => (.error e, [.getSettingsCall p])
  | .ok replicas =>
    withEvents [.getSettingsCall p]
      (if IndexExistsInReplicas replicas indexName false then
        createTail indexName env
      else
        let newReplicas := replicas ++ [indexName]
        match env.setReplicasErr with
        | some e => (.error e, [.setReplicasCall p newReplicas])
        | none =>
          match env.setReplicasWaitErr with
          | some e => (.error e, [.setReplicasCall p newReplicas, .waitCall])
          | none =>
            withEvents [.setReplicasCall p newReplicas, .waitCall]
              (createTail indexName env))

/-- Embeds `resourceIndexCreate` (internal/provider/resource_index.go).
When `primary_index_name` is set, the primary's lock key is taken first
and `defer mutexKV.Unlock` releases it when the function returns, so the
unlock event closes the trace on every path. -/
def resourceIndexCreate (appID indexName : String)
    (primaryIndexName : Option String) (env : RemoteEnv) :
    Except GoError Unit × List Event :=
  match primaryIndexName with
  | none => createTail indexName env
  | some p =>
    let key := algoliaIndexMutexKey appID p
    let body := resourceIndexCreateBody indexName p env
    (body.1, .lock key :: body.2 ++ [.unlock key])

/-- Section of `resourceVirtualIndexCreate`
(internal/provider/resource_virtual_index.go) that runs after
`mutexKV.Lock`: submit the membership write appending
`fmt.Sprintf("virtual(%s)", indexName)` to the list that was read before
the lock, wait on it, then continue with the tail of the create. -/
def virtualCreateLocked (indexName primaryIndexName : String)
    (newReplicas : List String) (env : RemoteEnv) :
    Except GoError Unit × List Event :=
  match env.setReplicasErr with
  | some e => (.error e, [.setReplicasCall primaryIndexName newReplicas])
  | none =>
    match env.setReplicasWaitErr with
    | some e =>
      (.error e, [.setReplicasCall primaryIndexName newReplicas, .waitCall])
    | none =>
      withEvents [.setReplicasCall primaryIndexName newReplicas, .waitCall]
        (createTail indexName env)

/-- Embeds `resourceVirtualIndexCreate`
(internal/provider/resource_virtual_index.go), assembled in the source
order: the primary's `GetSettings` runs before `mutexKV.Lock`, and the
lock is only reached inside the branch where the virtual identifier is
absent from the list just read; the deferred unlock still closes the
trace. -/
def resourceVirtualIndexCreate (appID indexName primaryIndexName : String)
    (env : RemoteEnv) : Except GoError Unit × List Event :=
  match env.primarySettings with
  | .error e => (.error e, [.getSettingsCall primaryIndexName])
  | .ok replicas =>
    if IndexExistsInReplicas replicas indexName true then
      withEvents [.getSettingsCall primaryIndexName] (createTail indexName env)
    else
      let key := algoliaIndexMutexKey appID primaryIndexName
      let inner :=
        virtualCreateLocked indexName primaryIndexName
          (replicas ++ ["virtual(" ++ indexName ++ ")"]) env
      (inner.1,
       .getSettingsCall primaryIndexName :: .lock key :: inner.2 ++ [.unlock key])

/-- Tail of both delete operations: `index.Delete` on the resource itself
followed by the wait on the deletion task. -/
def deleteTail (indexName : String) (env : RemoteEnv) :
    Except GoError Unit × List Event :=
  match env.deleteErr with
  | some e => (.error e, [.deleteIndexCall indexName])
  | none =>
    match env.deleteWaitErr with
    | some e => (.error e, [.deleteIndexCall indexName, .waitCall])
    | none => (.ok (), [.deleteIndexCall indexName, .waitCall])

/-- Membership step shared verbatim (up to the `isVirtual` flag) by
`resourceIndexDelete` and `resourceVirtualIndexDelete`, run while the
primary's lock is held: read the primary's settings; if the encoded
identifier is present, submit `RemoveIndexFromReplicas` as a whole-list
replacement and wait; then delete the index itself. A failed read returns
its error unconditionally. -/
def deleteMembershipBody (indexName p : String) (isVirtual : Bool)
    (env : RemoteEnv) : Except GoError Unit × List Event :=
  match env.primarySettings with
  | .error e => (.error e, [.getSettingsCall p])
  | .ok replicas =>
    withEvents [.getSettingsCall p]
      (if IndexExistsInReplicas replicas indexName isVirtual then
        let newReplicas := RemoveIndexFromReplicas replicas indexName isVirtual
        match env.setReplicasErr with
        | some e => (.error e, [.setReplicasCall p newReplicas])
        | none =>
          match env.setReplicasWaitErr with
          | some e => (.error e, [.setReplicasCall p newReplicas, .waitCall])
          | none =>
            withEvents [.setReplicasCall p newReplicas, .waitCall]
              (deleteTail indexName env)
      else deleteTail indexName env)

/-- Embeds `resourceIndexDelete` (internal/provider/resource_index.go):
deletion protection aborts first; with a primary set, the lock is taken
and released by `defer` around the membership removal and the deletion. -/
def resourceIndexDelete (appID indexName : String)
    (primaryIndexName : Option String) (deletionProtection : Bool)
    (env : RemoteEnv) : Except GoError Unit × List Event :=
  if deletionProtection then
    (.error (.generic "cannot destroy index without setting deletion_protection=false and running `terraform apply`"), [])
  else
    match primaryIndexName with
    | none => deleteTail indexName env
    | some p =>
      let key := algoliaIndexMutexKey appID p
      let body := deleteMembershipBody indexName p false env
      (body.1, .lock key :: body.2 ++ [.unlock key])

/-- Embeds `resourceVirtualIndexDelete`
(internal/provider/resource_virtual_index.go): the primary name is a
required attribute, so the lock is always taken after the protection
check. -/
def resourceVirtualIndexDelete (appID indexName primaryIndexName : String)
    (deletionProtection : Bool) (env : RemoteEnv) :
    Except GoError Unit × List Event :=
  if deletionProtection then
    (.error (.generic "cannot destroy index without setting deletion_protection=false and running `terraform apply`"), [])
  else
    let key := algoliaIndexMutexKey appID primaryIndexName
    let body := deleteMembershipBody indexName primaryIndexName true env
    (body.1, .lock key :: body.2 ++ [.unlock key])

/-- Payloads of the membership writes submitted to `target`, in order. -/
def replicaWrites (target : String) : List Event → List (List String)
  | [] => []
  | .setReplicasCall i rs :: rest =>
    if i = target then rs :: replicaWrites target rest
    else replicaWrites target rest
  | _ :: rest => replicaWrites target rest

/-- Discriminates lock events. -/
def isLockEvent : Event → Bool
  | .lock _ => true
  | _ => false

/-- No event of the trace is a lock acquisition. -/
def noLock : List Event → Bool
  | [] => true
  | e :: rest => !isLockEvent e && noLock rest

/-- A trace releases its locks when every `lock k` event in it is followed,
later in the trace, by an `unlock k` event. -/
def locksReleased : List Event → Bool
  | [] => true
  | .lock k :: rest => rest.contains (.unlock k) && locksReleased rest
  | _ :: rest => locksReleased rest

/-- Classification a read closure hands to the SDK retry helper. -/
inductive RetryError where
  | retryable (e : GoError)
  | nonRetryable (e : GoError)
deriving DecidableEq, Repr

/-- Result of a retried read: its final error (none on success) and the
number of read attempts performed. -/
structure RetryRun where
  result : Option GoError
  attempts : Nat
deriving DecidableEq, Repr

/-- Models the `retry.RetryContext` helper of the terraform-plugin-sdk at
its documented interface (the SDK is an external collaborator of this
repository, specified only at its interface): invoke the closure
repeatedly starting at attempt `i` while it reports a retryable error and
wall-clock budget remains; a success or a non-retryable error returns at
once, and an exhausted budget returns the last error. `fuel` counts the
remaining retry slots of the budget. -/
def retryLoop (step : Nat → Option RetryError) (fuel i : Nat) : RetryRun :=
  match step i with
  | none => ⟨none, i + 1⟩
  | some (.nonRetryable e) => ⟨some e, i + 1⟩
  | some (.retryable e) =>
    match fuel with
    | 0 => ⟨some e, i + 1⟩
    | f + 1 => retryLoop step f (i + 1)

/-- The `1*time.Minute` wall-clock budget passed to `retry.RetryContext`
by `refreshRuleState` and `refreshQuerySuggestionsState`, counted in
one-second retry slots. -/
def oneMinuteBudget : Nat := 60

/-- Run the retry helper from the first attempt with the given budget. -/
def retryContext (budget : Nat) (step : Nat → Option RetryError) : RetryRun :=
  retryLoop step budget 0

/-- Embeds the retry closure of `refreshRuleState`
(internal/provider/resource_rule.go): perform the read; if
`d.IsNewResource() && algoliautil.IsRetryableError(err)` report retryable,
else report any error as non-retryable, else succeed. The closure of
`refreshQuerySuggestionsState` is structurally identical. -/
def ruleReadStep (isNew : Bool) (reads : Nat → Except GoError Unit) (i : Nat) :
    Option RetryError :=
  match reads i with
  | .ok _ => none
  | .error e =>
    if isNew && IsRetryableError e then some (.retryable e)
    else some (.nonRetryable e)

/-- Embeds `refreshRuleState` (internal/provider/resource_rule.go): run
the read under `retry.RetryContext` with the one-minute budget; a final
not-found clears the state, any other final error is returned. The
second component counts the read attempts performed. -/
def refreshRuleState (isNew : Bool) (reads : Nat → Except GoError Unit) :
    Except GoError RefreshOutcome × Nat :=
  let run := retryContext oneMinuteBudget (ruleReadStep isNew reads)
  (match run.result with
   | some e => if IsNotFoundError e then .ok .removedFromState else .error e
   | none => .ok .populated,
   run.attempts)

/-- Attempt-counting view of `refreshIndexState`: the function calls
`GetSettings` exactly once, under no retry wrapper, so exactly one read
attempt is performed whatever the outcome. -/
def refreshIndexStateRun (reads : Nat → Except GoError Settings) :
    Except GoError RefreshOutcome × Nat :=
  (refreshIndexState (reads 0), 1)

/-- Shared state of one primary as observed by concurrent operations: the
holder bit of the primary's lock key in the keyed mutex registry
(internal/mutex/kv.go) and the primary's remote replica list. -/
structure SharedState where
  lockHeld : Bool
  replicas : List String
deriving DecidableEq, Repr

/-- Control point of one in-flight `resourceVirtualIndexCreate`, carrying
the replica-list snapshot its remaining steps use. -/
inductive OpPhase where
  | reading
  | locking (snapshot : List String)
  | writing (snapshot : List String)
  | unlocking
  | finished
deriving DecidableEq, Repr

/-- One atomic step of `resourceVirtualIndexCreate` for virtual replica
`nm` against the shared primary, in the source order: `GetSettings` takes
the snapshot before `mutexKV.Lock`; when the encoded identifier is already
in the snapshot the operation ends without writing; the membership write
replaces the whole list with `snapshot ++ [virtual(nm)]`; the deferred
unlock ends the operation. A `locking` step while another operation holds
the lock changes nothing (the caller blocks). -/
def vStep (nm : String) (ph : OpPhase) (s : SharedState) : OpPhase × SharedState :=
  match ph with
  | .reading =>
    if IndexExistsInReplicas s.replicas nm true then (.finished, s)
    else (.locking s.replicas, s)
  | .locking snapshot =>
    if s.lockHeld then (.locking snapshot, s)
    else (.writing snapshot, { s with lockHeld := true })
  | .writing snapshot =>
    (.unlocking, { s with replicas := snapshot ++ ["virtual(" ++ nm ++ ")"] })
  | .unlocking => (.finished, { s with lockHeld := false })
  | .finished => (.finished, s)

/-- Joint state of two concurrent virtual-replica creates against one
primary. -/
structure TwoOps where
  ph1 : OpPhase
  ph2 : OpPhase
  shared : SharedState
deriving DecidableEq, Repr

/-- Run one scheduled step: `true` steps the first operation, `false` the
second. -/
def schedStep (n1 n2 : String) (st : TwoOps) (choice : Bool) : TwoOps :=
  if choice then
    let next := vStep n1 st.ph1 st.shared
    { st with ph1 := next.1, shared := next.2 }
  else
    let next := vStep n2 st.ph2 st.shared
    { st with ph2 := next.1, shared := next.2 }

/-- Run a schedule (a list of choices) from a starting state. -/
def runSched (n1 n2 : String) (sched : List Bool) (st : TwoOps) : TwoOps :=
  sched.foldl (schedStep n1 n2) st

/-- Both operations at their start, lock free, empty replica list. -/
def initTwoOps : TwoOps := ⟨.reading, .reading, ⟨false, []⟩⟩

/-- Remote environment in which every call succeeds and the primary's
replica list is empty. -/
def envHappy : RemoteEnv :=
  ⟨.ok [], none, none, none, none, none, none, .ok ⟨[]⟩⟩

/-- A not-found error as the Algolia API returns it. -/
def notFoundErr : GoError := .algoliaErr 404 "Index p does not exist"

/-- Environment in which the primary has been deleted out-of-band: its
`GetSettings` fails with not-found. -/
def envPrimaryGone : RemoteEnv :=
  { envHappy with primarySettings := .error notFoundErr }

/-- Environment for deletes: the primary's list holds the bare and the
virtual encoding of `r1` plus an unrelated entry. -/
def envDelete : RemoteEnv :=
  { envHappy with primarySettings := .ok ["r1", "virtual(r1)", "x"] }

end provider

namespace algoliautil

theorem existsLoop_eq_any (replicas : List String) (t : String) :
    existsLoop replicas t = replicas.any (fun r => r == t) := by
  induction replicas with
  | nil => rfl
  | cons r rest ih =>
    by_cases h : r = t <;> simp [existsLoop, h, ih]

theorem removeLoop_eq_filter (replicas : List String) (t : String) :
    removeLoop replicas t = replicas.filter (fun r => ¬ r = t) := by
  induction replicas with
  | nil => rfl
  | cons r rest ih =>
    by_cases h : r = t <;> simp [removeLoop, h, ih, List.filter]

theorem mem_removeLoop (replicas : List String) (t x : String) :
    x ∈ removeLoop replicas t ↔ x ∈ replicas ∧ x ≠ t := by
  rw [removeLoop_eq_filter]
  simp [List.mem_filter]

/-- The two encodings of the same name have different lengths, hence are
distinct strings. -/
theorem getReplicaIndexName_ne (name : String) :
    getReplicaIndexName name false ≠ getReplicaIndexName name true := by
  show name ≠ "virtual(" ++ name ++ ")"
  intro h
  have hlen := congrArg String.length h
  rw [String.length_append, String.length_append] at hlen
  have h1 : ("virtual(" : String).length = 8 := by decide
  have h2 : (")" : String).length = 1 := by decide
  omega

/-- C5: bare and virtual-wrapped identifier forms are distinct and
non-interchangeable: for every name the two encodings are two distinct
list entries, and for every replica list, removing with one form leaves
membership of the other form's entry unchanged. -/
theorem form_distinctness (name : String) (l : List String) :
    getReplicaIndexName name false ≠ getReplicaIndexName name true
    ∧ (getReplicaIndexName name true ∈ RemoveIndexFromReplicas l name false ↔
        getReplicaIndexName name true ∈ l)
    ∧ (getReplicaIndexName name false ∈ RemoveIndexFromReplicas l name true ↔
        getReplicaIndexName name false ∈ l) := by
  refine ⟨getReplicaIndexName_ne name, ?_, ?_⟩
  · rw [RemoveIndexFromReplicas, mem_removeLoop]
    have hne := (getReplicaIndexName_ne name).symm
    simp [hne]
  · rw [RemoveIndexFromReplicas, mem_removeLoop]
    have hne := getReplicaIndexName_ne name
    simp [hne]

/-- C10: the identifier encoding is not injective across forms: a standard
replica literally named `virtual(x)` encodes to the same list entry as a
virtual replica named `x`, and the membership test and the removal
conflate the two for every list. -/
theorem encoding_not_injective_across_forms (x : String) (l : List String) :
    getReplicaIndexName ("virtual(" ++ x ++ ")") false = getReplicaIndexName x true
    ∧ IndexExistsInReplicas l ("virtual(" ++ x ++ ")") false =
        IndexExistsInReplicas l x true
    ∧ RemoveIndexFromReplicas l ("virtual(" ++ x ++ ")") false =
        RemoveIndexFromReplicas l x true :=
  ⟨rfl, rfl, rfl⟩

end algoliautil

namespace provider

open algoliautil

theorem replicaWrites_append (t : String) (a b : List Event) :
    replicaWrites t (a ++ b) = replicaWrites t a ++ replicaWrites t b := by
  induction a with
  | nil => rfl
  | cons e rest ih =>
    cases e with
    | setReplicasCall i rs => by_cases h : i = t <;> simp [replicaWrites, h, ih]
    | lock k => simpa [replicaWrites] using ih
    | unlock k => simpa [replicaWrites] using ih
    | getSettingsCall n => simpa [replicaWrites] using ih
    | setOwnSettingsCall n => simpa [replicaWrites] using ih
    | waitCall => simpa [replicaWrites] using ih
    | deleteIndexCall n => simpa [replicaWrites] using ih

theorem replicaWrites_createTail (t n : String) (env : RemoteEnv) :
    replicaWrites t (createTail n env).2 = [] := by
  cases h1 : env.setOwnErr <;> cases h2 : env.setOwnWaitErr <;>
    simp [createTail, h1, h2, replicaWrites]

theorem replicaWrites_deleteTail (t n : String) (env : RemoteEnv) :
    replicaWrites t (deleteTail n env).2 = [] := by
  cases h1 : env.deleteErr <;> cases h2 : env.deleteWaitErr <;>
    simp [deleteTail, h1, h2, replicaWrites]

theorem noLock_append (a b : List Event) :
    noLock (a ++ b) = (noLock a && noLock b) := by
  induction a with
  | nil => simp [noLock]
  | cons e rest ih => simp [noLock, ih, Bool.and_assoc]

theorem locksReleased_of_noLock (evs : List Event)
    (h : noLock evs = true) : locksReleased evs = true := by
  induction evs with
  | nil => rfl
  | cons e rest ih =>
    simp only [noLock, Bool.and_eq_true] at h
    have hrest := ih h.2
    cases e <;> simp [locksReleased, isLockEvent] at h ⊢ <;> exact hrest

theorem contains_append_singleton (evs : List Event) (x : Event) :
    (evs ++ [x]).contains x = true := by
  have hx : x ∈ evs ++ [x] := by simp
  exact List.elem_iff.mpr hx

theorem locksReleased_bracket (k : String) (evs : List Event)
    (h : noLock evs = true) :
    locksReleased (.lock k :: evs ++ [.unlock k]) = true := by
  have hnl : noLock (evs ++ [Event.unlock k]) = true := by
    rw [noLock_append]
    simp [h, noLock, isLockEvent]
  simp only [locksReleased, Bool.and_eq_true]
  exact ⟨contains_append_singleton evs _, locksReleased_of_noLock _ hnl⟩

theorem noLock_createTail (n : String) (env : RemoteEnv) :
    noLock (createTail n env).2 = true := by
  cases h1 : env.setOwnErr <;> cases h2 : env.setOwnWaitErr <;>
    simp [createTail, h1, h2, noLock, isLockEvent]

theorem noLock_deleteTail (n : String) (env : RemoteEnv) :
    noLock (deleteTail n env).2 = true := by
  cases h1 : env.deleteErr <;> cases h2 : env.deleteWaitErr <;>
    simp [deleteTail, h1, h2, noLock, isLockEvent]

theorem noLock_resourceIndexCreateBody (n p : String) (env : RemoteEnv) :
    noLock (resourceIndexCreateBody n p env).2 = true := by
  have ht := noLock_createTail n env
  cases h0 : env.primarySettings with
  | error e => simp [resourceIndexCreateBody, h0, noLock, isLockEvent]
  | ok replicas =>
    by_cases hex : IndexExistsInReplicas replicas n false <;>
      cases h1 : env.setReplicasErr <;> cases h2 : env.setReplicasWaitErr <;>
        simp_all [resourceIndexCreateBody, withEvents, noLock_append, noLock, isLockEvent]

theorem noLock_deleteMembershipBody (n p : String) (v : Bool) (env : RemoteEnv) :
    noLock (deleteMembershipBody n p v env).2 = true := by
  have ht := noLock_deleteTail n env
  cases h0 : env.primarySettings with
  | error e => simp [deleteMembershipBody, h0, noLock, isLockEvent]
  | ok replicas =>
    by_cases hex : IndexExistsInReplicas replicas n v <;>
      cases h1 : env.setReplicasErr <;> cases h2 : env.setReplicasWaitErr <;>
        simp_all [deleteMembershipBody, withEvents, noLock_append, noLock, isLockEvent]

theorem noLock_virtualCreateLocked (n p : String) (nr : List String)
    (env : RemoteEnv) : noLock (virtualCreateLocked n p nr env).2 = true := by
  have ht := noLock_createTail n env
  cases h1 : env.setReplicasErr <;> cases h2 : env.setReplicasWaitErr <;>
    simp_all [virtualCreateLocked, withEvents, noLock_append, noLock, isLockEvent]

theorem replicaWrites_createBody (name p : String) (env : RemoteEnv)
    (old : List String) (h : env.primarySettings = .ok old) :
    replicaWrites p (resourceIndexCreateBody name p env).2 =
      (if IndexExistsInReplicas old name false then [] else [old ++ [name]]) := by
  by_cases hex : IndexExistsInReplicas old name false <;>
    cases h1 : env.setReplicasErr <;> cases h2 : env.setReplicasWaitErr <;>
      simp [resourceIndexCreateBody, h, hex, h1, h2, withEvents,
        replicaWrites, replicaWrites_append, replicaWrites_createTail]

theorem replicaWrites_virtualCreate (appID name p : String) (env : RemoteEnv)
    (old : List String) (h : env.primarySettings = .ok old) :
    replicaWrites p (resourceVirtualIndexCreate appID name p env).2 =
      (if IndexExistsInReplicas old name true then []
       else [old ++ ["virtual(" ++ name ++ ")"]]) := by
  by_cases hex : IndexExistsInReplicas old name true <;>
    cases h1 : env.setReplicasErr <;> cases h2 : env.setReplicasWaitErr <;>
      simp [resourceVirtualIndexCreate, virtualCreateLocked, h, hex, h1, h2,
        withEvents, replicaWrites, replicaWrites_append, replicaWrites_createTail]

theorem replicaWrites_deleteBody (name p : String) (v : Bool) (env : RemoteEnv)
    (old : List String) (h : env.primarySettings = .ok old) :
    replicaWrites p (deleteMembershipBody name p v env).2 =
      (if IndexExistsInReplicas old name v
       then [RemoveIndexFromReplicas old name v] else []) := by
  by_cases hex : IndexExistsInReplicas old name v <;>
    cases h1 : env.setReplicasErr <;> cases h2 : env.setReplicasWaitErr <;>
      simp [deleteMembershipBody, h, hex, h1, h2, withEvents,
        replicaWrites, replicaWrites_append, replicaWrites_deleteTail]

/-- C1: for every create of a replica (standard or virtual) whose primary
is `p`, if the replica's encoded identifier is already in the list read
from `p` then no membership write is submitted to `p`; otherwise exactly
one membership write is submitted, a whole-list replacement equal to the
read list with the one encoded identifier appended. -/
theorem replica_create_idempotent_union (appID name p : String)
    (env : RemoteEnv) (old : List String)
    (h : env.primarySettings = .ok old) :
    replicaWrites p (resourceIndexCreate appID name (some p) env).2 =
      (if IndexExistsInReplicas old name false then []
       else [old ++ [getReplicaIndexName name false]])
    ∧ replicaWrites p (resourceVirtualIndexCreate appID name p env).2 =
      (if IndexExistsInReplicas old name true then []
       else [old ++ [getReplicaIndexName name true]]) := by
  constructor
  · have hb := replicaWrites_createBody name p env old h
    simp [resourceIndexCreate, replicaWrites, replicaWrites_append, hb,
      getReplicaIndexName]
  · have hv := replicaWrites_virtualCreate appID name p env old h
    simpa [getReplicaIndexName] using hv

/-- Witness for C1 at a concrete input: primary list `["a"]`, replica
`r1`, both encodings absent, so each create writes the one-element
extension. -/
theorem replica_create_idempotent_union_witness :
    replicaWrites "p"
        (resourceIndexCreate "app" "r1" (some "p")
          { envHappy with primarySettings := .ok ["a"] }).2 =
      (if IndexExistsInReplicas ["a"] "r1" false then []
       else [["a"] ++ [getReplicaIndexName "r1" false]])
    ∧ replicaWrites "p"
        (resourceVirtualIndexCreate "app" "r1" "p"
          { envHappy with primarySettings := .ok ["a"] }).2 =
      (if IndexExistsInReplicas ["a"] "r1" true then []
       else [["a"] ++ [getReplicaIndexName "r1" true]]) :=
  replica_create_idempotent_union "app" "r1" "p"
    { envHappy with primarySettings := .ok ["a"] } ["a"] rfl

/-- C3: for every delete of a replica (standard or virtual) whose primary
is `p`, if the encoded identifier is present in the read list the one
membership write submitted to `p` is the read list with every entry equal
to the encoded identifier removed, and if it is absent no membership write
is submitted; the removal removes exactly the entries equal to the encoded
identifier. -/
theorem replica_delete_set_difference (appID name p : String)
    (env : RemoteEnv) (old : List String)
    (h : env.primarySettings = .ok old) :
    replicaWrites p (resourceIndexDelete appID name (some p) false env).2 =
      (if IndexExistsInReplicas old name false
       then [RemoveIndexFromReplicas old name false] else [])
    ∧ replicaWrites p (resourceVirtualIndexDelete appID name p false env).2 =
      (if IndexExistsInReplicas old name true
       then [RemoveIndexFromReplicas old name true] else [])
    ∧ (∀ v x, x ∈ RemoveIndexFromReplicas old name v ↔
        x ∈ old ∧ x ≠ getReplicaIndexName name v) := by
  refine ⟨?_, ?_, ?_⟩
  · have hb := replicaWrites_deleteBody name p false env old h
    simp [resourceIndexDelete, replicaWrites, replicaWrites_append, hb]
  · have hb := replicaWrites_deleteBody name p true env old h
    simp [resourceVirtualIndexDelete, replicaWrites, replicaWrites_append, hb]
  · intro v x
    simpa [RemoveIndexFromReplicas] using
      mem_removeLoop old (getReplicaIndexName name v) x

/-- Witness for C3 at a concrete input: primary list
`["r1", "virtual(r1)", "x"]` and replica `r1`. -/
theorem replica_delete_set_difference_witness :
    replicaWrites "p" (resourceIndexDelete "app" "r1" (some "p") false envDelete).2 =
      (if IndexExistsInReplicas ["r1", "virtual(r1)", "x"] "r1" false
       then [RemoveIndexFromReplicas ["r1", "virtual(r1)", "x"] "r1" false] else [])
    ∧ replicaWrites "p" (resourceVirtualIndexDelete "app" "r1" "p" false envDelete).2 =
      (if IndexExistsInReplicas ["r1", "virtual(r1)", "x"] "r1" true
       then [RemoveIndexFromReplicas ["r1", "virtual(r1)", "x"] "r1" true] else [])
    ∧ (∀ v x, x ∈ RemoveIndexFromReplicas ["r1", "virtual(r1)", "x"] "r1" v ↔
        x ∈ ["r1", "virtual(r1)", "x"] ∧ x ≠ getReplicaIndexName "r1" v) :=
  replica_delete_set_difference "app" "r1" "p" envDelete
    ["r1", "virtual(r1)", "x"] rfl

/-- C2: at a concrete virtual-replica create, the trace of
`resourceVirtualIndexCreate` opens with the primary's `GetSettings` and
only then acquires the lock key, so the read whose result feeds the
membership write happens before the `Lock` call, refuting the claim; the
standard create locks before reading. -/
theorem virtual_create_reads_before_lock :
    (resourceVirtualIndexCreate "app" "r1" "p" envHappy).2 =
      [.getSettingsCall "p", .lock "app-algolia-index-p",
       .setReplicasCall "p" ["virtual(r1)"], .waitCall,
       .setOwnSettingsCall "r1", .waitCall, .getSettingsCall "r1",
       .unlock "app-algolia-index-p"]
    ∧ (resourceIndexCreate "app" "r1" (some "p") envHappy).2 =
      [.lock "app-algolia-index-p", .getSettingsCall "p",
       .setReplicasCall "p" ["r1"], .waitCall,
       .setOwnSettingsCall "r1", .waitCall, .getSettingsCall "r1",
       .unlock "app-algolia-index-p"] := by
  constructor <;> rfl

/-- C4 counterexample: with the primary deleted out-of-band (not-found on
its `GetSettings`), `resourceIndexDelete` returns that error and never
reaches the deletion of the replica itself, refuting the claim that the
not-found is skipped and the delete proceeds. -/
theorem delete_surfaces_primary_not_found :
    (resourceIndexDelete "app" "r1" (some "p") false envPrimaryGone).1 =
      .error notFoundErr
    ∧ Event.deleteIndexCall "r1" ∉
        (resourceIndexDelete "app" "r1" (some "p") false envPrimaryGone).2
    ∧ IsNotFoundError notFoundErr = true := by
  refine ⟨rfl, ?_, rfl⟩
  decide

/-- C4 amended: any failure of the primary's settings read, not-found
included, aborts the delete: the error is surfaced as the operation's
result and neither the membership removal nor the deletion of the replica
itself is attempted, in the standard and the virtual delete alike. -/
theorem delete_aborts_on_primary_read_error (appID name p : String)
    (env : RemoteEnv) (e : GoError) (h : env.primarySettings = .error e) :
    (resourceIndexDelete appID name (some p) false env).1 = .error e
    ∧ Event.deleteIndexCall name ∉
        (resourceIndexDelete appID name (some p) false env).2
    ∧ (resourceVirtualIndexDelete appID name p false env).1 = .error e
    ∧ Event.deleteIndexCall name ∉
        (resourceVirtualIndexDelete appID name p false env).2 := by
  refine ⟨?_, ?_, ?_, ?_⟩ <;>
    simp [resourceIndexDelete, resourceVirtualIndexDelete,
      deleteMembershipBody, h]

/-- Witness for C4's amended claim at the concrete environment where the
primary is gone. -/
theorem delete_aborts_on_primary_read_error_witness :
    (resourceIndexDelete "app" "r1" (some "p") false envPrimaryGone).1 =
      .error notFoundErr
    ∧ Event.deleteIndexCall "r1" ∉
        (resourceIndexDelete "app" "r1" (some "p") false envPrimaryGone).2
    ∧ (resourceVirtualIndexDelete "app" "r1" "p" false envPrimaryGone).1 =
      .error notFoundErr
    ∧ Event.deleteIndexCall "r1" ∉
        (resourceVirtualIndexDelete "app" "r1" "p" false envPrimaryGone).2 :=
  delete_aborts_on_primary_read_error "app" "r1" "p" envPrimaryGone
    notFoundErr rfl

/-- C8: every lifecycle operation that acquires a primary's lock key
releases it before returning: in every trace, over all remote outcomes,
each lock event is followed by a matching unlock event. -/
theorem lock_released_on_every_path (appID name pv : String)
    (p : Option String) (dp : Bool) (env : RemoteEnv) :
    locksReleased (resourceIndexCreate appID name p env).2 = true
    ∧ locksReleased (resourceVirtualIndexCreate appID name pv env).2 = true
    ∧ locksReleased (resourceIndexDelete appID name p dp env).2 = true
    ∧ locksReleased (resourceVirtualIndexDelete appID name pv dp env).2 = true := by
  refine ⟨?_, ?_, ?_, ?_⟩
  · cases p with
    | none => exact locksReleased_of_noLock _ (noLock_createTail name env)
    | some pn =>
      simpa [resourceIndexCreate] using
        locksReleased_bracket (algoliaIndexMutexKey appID pn)
          (resourceIndexCreateBody name pn env).2
          (noLock_resourceIndexCreateBody name pn env)
  · cases h0 : env.primarySettings with
    | error e => simp [resourceVirtualIndexCreate, h0, locksReleased]
    | ok replicas =>
      by_cases hex : IndexExistsInReplicas replicas name true
      · apply locksReleased_of_noLock
        simp [resourceVirtualIndexCreate, h0, hex, withEvents, noLock,
          isLockEvent, noLock_createTail name env]
      · have hb := locksReleased_bracket (algoliaIndexMutexKey appID pv)
          ((virtualCreateLocked name pv
            (replicas ++ ["virtual(" ++ name ++ ")"]) env).2)
          (noLock_virtualCreateLocked name pv _ env)
        simpa [resourceVirtualIndexCreate, h0, hex, locksReleased] using hb
  · cases dp with
    | true => simp [resourceIndexDelete, locksReleased]
    | false =>
      cases p with
      | none =>
        exact locksReleased_of_noLock _ (noLock_deleteTail name env)
      | some pn =>
        simpa [resourceIndexDelete] using
          locksReleased_bracket (algoliaIndexMutexKey appID pn)
            (deleteMembershipBody name pn false env).2
            (noLock_deleteMembershipBody name pn false env)
  · cases dp with
    | true => simp [resourceVirtualIndexDelete, locksReleased]
    | false =>
      simpa [resourceVirtualIndexDelete] using
        locksReleased_bracket (algoliaIndexMutexKey appID pv)
          (deleteMembershipBody name pv true env).2
          (noLock_deleteMembershipBody name pv true env)

theorem retryLoop_nonRetryable (step : Nat → Option RetryError)
    (fuel i : Nat) (e : GoError) (h : step i = some (.nonRetryable e)) :
    retryLoop step fuel i = ⟨some e, i + 1⟩ := by
  cases fuel <;> simp [retryLoop, h]

theorem retryLoop_none (step : Nat → Option RetryError)
    (fuel i : Nat) (h : step i = none) :
    retryLoop step fuel i = ⟨none, i + 1⟩ := by
  cases fuel <;> simp [retryLoop, h]

theorem retryLoop_zero_retryable (step : Nat → Option RetryError)
    (i : Nat) (e : GoError) (h : step i = some (.retryable e)) :
    retryLoop step 0 i = ⟨some e, i + 1⟩ := by
  simp [retryLoop, h]

theorem retryLoop_succ_retryable (step : Nat → Option RetryError)
    (f i : Nat) (e : GoError) (h : step i = some (.retryable e)) :
    retryLoop step (f + 1) i = retryLoop step f (i + 1) := by
  conv_lhs => rw [retryLoop]
  simp [h]

theorem retryLoop_attempts_le (step : Nat → Option RetryError)
    (fuel i : Nat) : (retryLoop step fuel i).attempts ≤ i + fuel + 1 := by
  induction fuel generalizing i with
  | zero =>
    cases hs : step i with
    | none => rw [retryLoop_none step 0 i hs]
    | some r =>
      cases r with
      | nonRetryable e => rw [retryLoop_nonRetryable step 0 i e hs]
      | retryable e => rw [retryLoop_zero_retryable step i e hs]
  | succ f ih =>
    cases hs : step i with
    | none =>
      rw [retryLoop_none step (f + 1) i hs]
      show i + 1 ≤ i + (f + 1) + 1
      omega
    | some r =>
      cases r with
      | nonRetryable e =>
        rw [retryLoop_nonRetryable step (f + 1) i e hs]
        show i + 1 ≤ i + (f + 1) + 1
        omega
      | retryable e =>
        rw [retryLoop_succ_retryable step f i e hs]
        have hr := ih (i + 1)
        omega

theorem retryLoop_exhausted (step : Nat → Option RetryError)
    (fuel i : Nat)
    (h : ∀ j, i ≤ j → j ≤ i + fuel → ∃ e, step j = some (.retryable e)) :
    ∃ e, step (i + fuel) = some (.retryable e) ∧
      retryLoop step fuel i = ⟨some e, i + fuel + 1⟩ := by
  induction fuel generalizing i with
  | zero =>
    obtain ⟨e, he⟩ := h i le_rfl (by omega)
    exact ⟨e, by simpa using he, by rw [retryLoop_zero_retryable step i e he]⟩
  | succ f ih =>
    obtain ⟨e, he⟩ := h i le_rfl (by omega)
    obtain ⟨e2, he2, hr⟩ := ih (i + 1) (fun j hj1 hj2 => h j (by omega) (by omega))
    have hidx : i + 1 + f = i + (f + 1) := by omega
    refine ⟨e2, by rwa [hidx] at he2, ?_⟩
    rw [retryLoop_succ_retryable step f i e he, hr]
    congr 1
    omega

theorem ruleReadStep_retryable_inv (isNew : Bool)
    (reads : Nat → Except GoError Unit) (i : Nat) (e : GoError)
    (h : ruleReadStep isNew reads i = some (.retryable e)) :
    reads i = .error e ∧ (isNew && IsRetryableError e) = true := by
  cases hr : reads i with
  | ok u => simp [ruleReadStep, hr] at h
  | error e2 =>
    by_cases hc : (isNew && IsRetryableError e2) = true
    · simp [ruleReadStep, hr, hc] at h
      subst h
      exact ⟨rfl, hc⟩
    · simp [ruleReadStep, hr, hc] at h

/-- C6: the post-create read-back wrapper (`refreshRuleState` with
`IsNewResource` true) retries only on the `IsRetryableError` whitelist
(not-found and no-more-hosts-to-try): a read failing with any other error
kind is returned immediately with no further attempt; the attempt count is
bounded by the retry budget, in particular by the one-minute budget the
source passes; and exhausting the budget on whitelisted errors returns the
last error. -/
theorem retry_whitelist_budget (budget : Nat)
    (reads : Nat → Except GoError Unit) :
    (∀ fuel i e, reads i = .error e → IsRetryableError e = false →
        retryLoop (ruleReadStep true reads) fuel i = ⟨some e, i + 1⟩)
    ∧ (retryContext budget (ruleReadStep true reads)).attempts ≤ budget + 1
    ∧ (refreshRuleState true reads).2 ≤ oneMinuteBudget + 1
    ∧ ((∀ j, j ≤ budget → ∃ e, reads j = .error e ∧ IsRetryableError e = true) →
        ∃ e, reads budget = .error e ∧
          retryContext budget (ruleReadStep true reads) = ⟨some e, budget + 1⟩) := by
  refine ⟨?_, ?_, ?_, ?_⟩
  · intro fuel i e he hwl
    exact retryLoop_nonRetryable _ fuel i e (by simp [ruleReadStep, he, hwl])
  · simpa [retryContext] using
      retryLoop_attempts_le (ruleReadStep true reads) budget 0
  · simpa [refreshRuleState, retryContext] using
      retryLoop_attempts_le (ruleReadStep true reads) oneMinuteBudget 0
  · intro hall
    have hstep : ∀ j, 0 ≤ j → j ≤ 0 + budget →
        ∃ e, ruleReadStep true reads j = some (.retryable e) := by
      intro j hj1 hj2
      obtain ⟨e, he, hwl⟩ := hall j (by omega)
      exact ⟨e, by simp [ruleReadStep, he, hwl]⟩
    obtain ⟨e, he, hr⟩ := retryLoop_exhausted (ruleReadStep true reads) budget 0 hstep
    obtain ⟨hre, _⟩ := ruleReadStep_retryable_inv true reads (0 + budget) e he
    exact ⟨e, by simpa using hre, by simpa [retryContext] using hr⟩

/-- Witness for C6 at concrete inputs: a non-whitelisted error is returned
after one attempt, and an all-not-found sequence exhausts a budget of two
retries returning not-found after three attempts. -/
theorem retry_whitelist_budget_witness :
    retryLoop (ruleReadStep true (fun _ => .error (.generic "boom"))) 5 0 =
      ⟨some (.generic "boom"), 1⟩
    ∧ (∃ e, (fun _ => (.error notFoundErr : Except GoError Unit)) 2 = .error e ∧
        retryContext 2 (ruleReadStep true (fun _ => .error notFoundErr)) =
          ⟨some e, 3⟩) := by
  constructor
  · exact (retry_whitelist_budget 5 (fun _ => .error (.generic "boom"))).1
      5 0 (.generic "boom") rfl rfl
  · exact (retry_whitelist_budget 2 (fun _ => .error notFoundErr)).2.2.2
      (fun j hj => ⟨notFoundErr, rfl, rfl⟩)

/-- C7 counterexample: the index create path's read-back is
`refreshIndexState`, which performs exactly one read attempt and treats a
(retryable) not-found as authoritative, clearing the state; under the
retry policy the same all-not-found read sequence is retried for the whole
budget, so the index create path does not read back under the retry
policy. -/
theorem index_create_readback_not_retried :
    refreshIndexStateRun (fun _ => .error notFoundErr) =
      (.ok .removedFromState, 1)
    ∧ IsRetryableError notFoundErr = true
    ∧ (refreshRuleState true (fun _ => .error notFoundErr)).2 =
        oneMinuteBudget + 1 := by
  refine ⟨rfl, rfl, ?_⟩
  decide

/-- C7 amended: the retry policy is applied to a read exactly when the
read follows a create of the same resource in the rule-style refresh
paths (`refreshRuleState`, and the identical query-suggestions path): a
steady-state rule refresh performs exactly one attempt whatever the
outcome, a post-create rule refresh returns a non-whitelisted error after
one attempt, while the index and virtual-index refresh (used by their
create paths too) always performs exactly one attempt and treats
not-found as authoritative, clearing the state. -/
theorem retry_applied_only_on_rule_create_readback
    (reads : Nat → Except GoError Unit)
    (sreads : Nat → Except GoError Settings) :
    (refreshRuleState false reads).2 = 1
    ∧ (∀ e, reads 0 = .error e → IsRetryableError e = false →
        (refreshRuleState true reads).2 = 1)
    ∧ (refreshIndexStateRun sreads).2 = 1
    ∧ (∀ e, sreads 0 = .error e → IsNotFoundError e = true →
        refreshIndexStateRun sreads = (.ok .removedFromState, 1)) := by
  refine ⟨?_, ?_, rfl, ?_⟩
  · cases hr : reads 0 with
    | ok u =>
      simp [refreshRuleState, retryContext, retryLoop, ruleReadStep, hr]
    | error e =>
      simp [refreshRuleState, retryContext, retryLoop, ruleReadStep, hr]
  · intro e he hwl
    have hstep : ruleReadStep true reads 0 = some (.nonRetryable e) := by
      simp [ruleReadStep, he, hwl]
    simp [refreshRuleState, retryContext,
      retryLoop_nonRetryable (ruleReadStep true reads) oneMinuteBudget 0 e hstep]
  · intro e he hnf
    simp [refreshIndexStateRun, refreshIndexState, he, hnf]

/-- Witness for C7's amended claim at concrete inputs. -/
theorem retry_applied_only_on_rule_create_readback_witness :
    (refreshRuleState false (fun _ => .error notFoundErr)).2 = 1
    ∧ (refreshRuleState true (fun _ => .error (.generic "boom"))).2 = 1
    ∧ refreshIndexStateRun (fun _ => .error notFoundErr) =
        (.ok .removedFromState, 1) := by
  refine ⟨?_, ?_, ?_⟩
  · exact (retry_applied_only_on_rule_create_readback
      (fun _ => .error notFoundErr) (fun _ => .error notFoundErr)).1
  · exact (retry_applied_only_on_rule_create_readback
      (fun _ => .error (.generic "boom")) (fun _ => .error notFoundErr)).2.1
      (.generic "boom") rfl rfl
  · exact (retry_applied_only_on_rule_create_readback
      (fun _ => .error notFoundErr) (fun _ => .error notFoundErr)).2.2.2
      notFoundErr rfl rfl

/-- C9: lost update under a lock-respecting interleaving of two concurrent
virtual-replica creates on one primary: both read the empty list before
either locks, the first locks, writes and unlocks, then the second locks
and writes its stale snapshot; the final list holds only the second entry
and matches neither serial order, refuting linearizability for these
operations. -/
theorem concurrent_virtual_creates_lose_update :
    (runSched "R1" "R2" [true, false, true, true, true, false, false, false]
        initTwoOps).shared.replicas = ["virtual(R2)"]
    ∧ (runSched "R1" "R2" [true, true, true, true, false, false, false, false]
        initTwoOps).shared.replicas = ["virtual(R1)", "virtual(R2)"]
    ∧ (runSched "R1" "R2" [false, false, false, false, true, true, true, true]
        initTwoOps).shared.replicas = ["virtual(R2)", "virtual(R1)"]
    ∧ "virtual(R1)" ∉
        (runSched "R1" "R2" [true, false, true, true, true, false, false, false]
          initTwoOps).shared.replicas := by
  refine ⟨rfl, rfl, rfl, ?_⟩
  decide

end provider

end Algolia
